import Mathlib

/-!
Shallow embedding of the `tide-fluent-routes` route-tree builder
(`src/lib.rs`) and verification of its specification.

Modelling decisions:
* Endpoint handlers and middleware values are opaque in the source
  (`Box<dyn Endpoint>`, `Box<dyn Middleware>`); they are modelled by type
  parameters `H` and `M`.
* `tide::http::Method` is modelled by the inductive `Method`.
* `HashMap<Method, BoxedEndpoint>` is modelled by an association list holding
  the map's contents; `HashMap::insert` removes any existing binding for the
  key and adds the new one.  A `HashMap`'s iteration order is unspecified in
  Rust, so `build` (which iterates the map via `into_iter`) is modelled twice:
  `RouteBuilder.build` is a deterministic function that iterates the contents
  in list order, and the relation `BuildR` captures every output that some
  iteration order of the per-node endpoint maps could produce.
-/

namespace TideRoutes

/-- The HTTP methods of `tide::http::Method`. -/
inductive Method : Type where
  | get
  | post
  | put
  | delete
  | head
  | options
  | connect
  | patch
  | trace
deriving DecidableEq

/-- `enum RouteSegment<State> { Root, Path(String), Middleware(Box<dyn Middleware<State>>) }`. -/
inductive RouteSegment (M : Type) : Type where
  | root
  | path (s : String)
  | middleware (m : M)
deriving DecidableEq

/-- `struct EndpointDescriptor<State>(String, Vec<Box<dyn Middleware<State>>>, Method, BoxedEndpoint<State>)`. -/
structure EndpointDescriptor (M H : Type) : Type where
  path : String
  middlewares : List M
  method : Method
  endpoint : H
deriving DecidableEq

/-- `struct RouteBuilder<State> { route: RouteSegment<State>, branches: Vec<RouteBuilder<State>>, endpoints: HashMap<Method, BoxedEndpoint<State>> }`.
A recursive tree, so an inductive rather than a structure. -/
inductive RouteBuilder (M H : Type) : Type where
  | mk (route : RouteSegment M) (branches : List (RouteBuilder M H))
      (endpoints : List (Method × H))

variable {M H : Type}

/-- Projection for the `route` field. -/
def RouteBuilder.route : RouteBuilder M H → RouteSegment M
  | ⟨r, _, _⟩ => r

/-- Projection for the `branches` field. -/
def RouteBuilder.branches : RouteBuilder M H → List (RouteBuilder M H)
  | ⟨_, bs, _⟩ => bs

/-- Projection for the `endpoints` field. -/
def RouteBuilder.endpoints : RouteBuilder M H → List (Method × H)
  | ⟨_, _, es⟩ => es

/-- `pub fn root<State>() -> RouteBuilder<State>`: the `Root` node with no
branches and no endpoints. -/
def root : RouteBuilder M H := ⟨.root, [], []⟩

/-- Contents of a `HashMap<Method, _>` after `insert(m, h)`: any old binding
for `m` is dropped and the new one added (iteration order is unspecified, so
only the contents matter; `BuildR` below quantifies over orders). -/
def insertEndpoint (m : Method) (h : H) (l : List (Method × H)) :
    List (Method × H) :=
  l.filter (fun p => p.1 ≠ m) ++ [(m, h)]

/-- `fn add_branch(mut self, spec, routes) -> Self`: pushes
`routes(RouteBuilder { route: spec, branches: vec![], endpoints: HashMap::new() })`
onto `self.branches`. -/
def RouteBuilder.add_branch (t : RouteBuilder M H) (spec : RouteSegment M)
    (routes : RouteBuilder M H → RouteBuilder M H) : RouteBuilder M H :=
  ⟨t.route, t.branches ++ [routes ⟨spec, [], []⟩], t.endpoints⟩

/-- `pub fn at(self, path, routes) -> Self`: `add_branch` with a `Path` segment. -/
def RouteBuilder.«at» (t : RouteBuilder M H) (path : String)
    (routes : RouteBuilder M H → RouteBuilder M H) : RouteBuilder M H :=
  t.add_branch (.path path) routes

/-- `pub fn with(self, middleware, routes) -> Self`: `add_branch` with a
`Middleware` segment. -/
def RouteBuilder.«with» (t : RouteBuilder M H) (middleware : M)
    (routes : RouteBuilder M H → RouteBuilder M H) : RouteBuilder M H :=
  t.add_branch (.middleware middleware) routes

/-- `pub fn method(mut self, method, endpoint) -> Self`: inserts into the
`endpoints` map (overwriting any previous binding) and returns the node. -/
def RouteBuilder.method (t : RouteBuilder M H) (m : Method) (endpoint : H) :
    RouteBuilder M H :=
  ⟨t.route, t.branches, insertEndpoint m endpoint t.endpoints⟩

/-- The descriptor `build` emits for one `(method, endpoint)` entry:
`EndpointDescriptor(String::new(), Vec::new(), method, endpoint)`. -/
def descOf (p : Method × H) : EndpointDescriptor M H :=
  ⟨"", [], p.1, p.2⟩

mutual

/-- `fn build(self) -> impl Iterator<Item = EndpointDescriptor<State>>`:
`local_endpoints` (one descriptor per endpoint entry, with empty path and
empty middleware vector) chained with `sub_endpoints`
(`branches.into_iter().flat_map(build)`).  This function fixes the endpoint
map's iteration order to the list order; `BuildR` admits all orders. -/
def RouteBuilder.build : RouteBuilder M H → List (EndpointDescriptor M H)
  | ⟨_, branches, endpoints⟩ =>
      endpoints.map descOf ++ (RouteBuilder.buildAll branches).flatten
termination_by t => sizeOf t

/-- `branches.into_iter().map(build)`, kept as a list of per-branch outputs. -/
def RouteBuilder.buildAll :
    List (RouteBuilder M H) → List (List (EndpointDescriptor M H))
  | [] => []
  | t :: ts => t.build :: RouteBuilder.buildAll ts
termination_by ts => sizeOf ts

end

/-- `fn register(&mut self, routes)`: for each
`EndpointDescriptor(path, _middleware, method, endpoint)` of `routes.build()`,
call `register_endpoint(&path, method, endpoint)`.  The value is the ordered
list of `(path, method, endpoint)` arguments of those calls; note the source
discards the `_middleware` component. -/
def registerCalls (t : RouteBuilder M H) : List (String × Method × H) :=
  t.build.map fun d => (d.path, d.method, d.endpoint)

mutual

/-- All outputs `build` can produce on a tree when each node's
`HashMap::into_iter` is allowed to yield the map's entries in an arbitrary
order: the node's own entries, in some permutation `loc` of the map contents,
each mapped to a descriptor with empty path and middleware, followed by the
branches' outputs in branch order. -/
inductive BuildR : RouteBuilder M H → List (EndpointDescriptor M H) → Prop where
  | node (route : RouteSegment M) (branches : List (RouteBuilder M H))
      (endpoints loc : List (Method × H))
      (subs : List (List (EndpointDescriptor M H))) :
      loc.Perm endpoints → BuildRList branches subs →
      BuildR ⟨route, branches, endpoints⟩ (loc.map descOf ++ subs.flatten)

/-- `BuildR` lifted pointwise to a list of branches. -/
inductive BuildRList :
    List (RouteBuilder M H) → List (List (EndpointDescriptor M H)) → Prop where
  | nil : BuildRList [] []
  | cons {t : RouteBuilder M H} {out : List (EndpointDescriptor M H)}
      {ts : List (RouteBuilder M H)}
      {outs : List (List (EndpointDescriptor M H))} :
      BuildR t out → BuildRList ts outs → BuildRList (t :: ts) (out :: outs)

end

/-- Unfolding equation for `build` on a constructor. -/
theorem build_mk (route : RouteSegment M) (branches : List (RouteBuilder M H))
    (endpoints : List (Method × H)) :
    RouteBuilder.build ⟨route, branches, endpoints⟩ =
      endpoints.map descOf ++ (RouteBuilder.buildAll branches).flatten := by
  rw [RouteBuilder.build]

/-- `buildAll` is `List.map build`. -/
theorem buildAll_eq_map (ts : List (RouteBuilder M H)) :
    RouteBuilder.buildAll ts = ts.map RouteBuilder.build := by
  induction ts with
  | nil => rw [RouteBuilder.buildAll]; rfl
  | cons t ts ih => rw [RouteBuilder.buildAll, ih]; rfl

mutual

/-- The deterministic `build` is one of the behaviours admitted by `BuildR`
(the iteration order that follows the association list). -/
theorem build_buildR : ∀ t : RouteBuilder M H, BuildR t t.build
  | ⟨route, branches, endpoints⟩ => by
    rw [build_mk]
    exact BuildR.node route branches endpoints endpoints
      (RouteBuilder.buildAll branches) (List.Perm.refl _)
      (buildAll_buildRList branches)
termination_by t => sizeOf t

/-- Companion of `build_buildR` for branch lists. -/
theorem buildAll_buildRList :
    ∀ ts : List (RouteBuilder M H), BuildRList ts (RouteBuilder.buildAll ts)
  | [] => by rw [RouteBuilder.buildAll]; exact .nil
  | t :: ts => by
    rw [RouteBuilder.buildAll]
    exact .cons (build_buildR t) (buildAll_buildRList ts)
termination_by ts => sizeOf ts

end

mutual

/-- Any two outputs `BuildR` admits for the same tree are permutations of one
another: the only freedom is the iteration order of each node's endpoint map. -/
theorem buildR_perm :
    ∀ (t : RouteBuilder M H) (o₁ o₂ : List (EndpointDescriptor M H)),
      BuildR t o₁ → BuildR t o₂ → o₁.Perm o₂
  | ⟨_route, branches, endpoints⟩, _, _,
      .node _ _ _ loc₁ subs₁ hp₁ hl₁, .node _ _ _ loc₂ subs₂ hp₂ hl₂ =>
    List.Perm.append ((hp₁.trans hp₂.symm).map descOf)
      (buildRList_perm branches subs₁ subs₂ hl₁ hl₂)
termination_by t => sizeOf t

/-- Companion of `buildR_perm` for branch lists: the flattened branch outputs
of two runs are permutations of one another. -/
theorem buildRList_perm :
    ∀ (ts : List (RouteBuilder M H))
      (s₁ s₂ : List (List (EndpointDescriptor M H))),
      BuildRList ts s₁ → BuildRList ts s₂ → s₁.flatten.Perm s₂.flatten
  | [], _, _, .nil, .nil => List.Perm.refl _
  | t :: ts, _, _, .cons h₁ hs₁, .cons h₂ hs₂ => by
    simp only [List.flatten_cons]
    exact List.Perm.append (buildR_perm t _ _ h₁ h₂)
      (buildRList_perm ts _ _ hs₁ hs₂)
termination_by ts => sizeOf ts

end

mutual

/-- Every descriptor in any `BuildR` output has empty path and empty
middleware list: `build` fills both with `String::new()` / `Vec::new()`. -/
theorem buildR_descriptor_empty :
    ∀ (t : RouteBuilder M H) (out : List (EndpointDescriptor M H)),
      BuildR t out → ∀ d ∈ out, d.path = "" ∧ d.middlewares = []
  | ⟨_route, branches, _endpoints⟩, _, .node _ _ _ loc subs _hp hl => by
    intro d hd
    rcases List.mem_append.1 hd with h | h
    · rcases List.mem_map.1 h with ⟨p, _, rfl⟩
      exact ⟨rfl, rfl⟩
    · exact buildRList_descriptor_empty branches subs hl d h
termination_by t => sizeOf t

/-- Companion of `buildR_descriptor_empty` for branch lists. -/
theorem buildRList_descriptor_empty :
    ∀ (ts : List (RouteBuilder M H))
      (subs : List (List (EndpointDescriptor M H))),
      BuildRList ts subs → ∀ d ∈ subs.flatten, d.path = "" ∧ d.middlewares = []
  | [], _, .nil => by intro d hd; simp at hd
  | t :: ts, _, .cons h hs => by
    intro d hd
    simp only [List.flatten_cons, List.mem_append] at hd
    rcases hd with h₁ | h₂
    · exact buildR_descriptor_empty t _ h d h₁
    · exact buildRList_descriptor_empty ts _ hs d h₂
termination_by ts => sizeOf ts

end

mutual

/-- Number of endpoint registrations in the whole tree. -/
def countEndpoints : RouteBuilder M H → Nat
  | ⟨_, branches, endpoints⟩ => endpoints.length + countEndpointsList branches
termination_by t => sizeOf t

/-- Sum of `countEndpoints` over a list of branches. -/
def countEndpointsList : List (RouteBuilder M H) → Nat
  | [] => 0
  | t :: ts => countEndpoints t + countEndpointsList ts
termination_by ts => sizeOf ts

end

mutual

/-- `build` emits exactly one descriptor per endpoint registration. -/
theorem build_length :
    ∀ t : RouteBuilder M H, t.build.length = countEndpoints t
  | ⟨route, branches, endpoints⟩ => by
    rw [build_mk, countEndpoints]
    simp only [List.length_append, List.length_map]
    exact congrArg (endpoints.length + ·) (buildAll_length branches)
termination_by t => sizeOf t

/-- Companion of `build_length` for branch lists. -/
theorem buildAll_length :
    ∀ ts : List (RouteBuilder M H),
      (RouteBuilder.buildAll ts).flatten.length = countEndpointsList ts
  | [] => by rw [RouteBuilder.buildAll, countEndpointsList]; rfl
  | t :: ts => by
    rw [RouteBuilder.buildAll, countEndpointsList]
    simp only [List.flatten_cons, List.length_append]
    exact congrArg₂ (· + ·) (build_length t) (buildAll_length ts)
termination_by ts => sizeOf ts

end

/-- Concrete tree for P2: `root().at("api", r => r.at("v1", r2 => r2.method(GET, h)))`
with handler `h` modelled as `0`. -/
def c1Tree : RouteBuilder Nat Nat :=
  (root).«at» "api" (fun r => r.«at» "v1" (fun r₂ => r₂.method .get 0))

/-- Concrete tree for P4: `root().with(M1, r => r.with(M2, r2 => r2.method(GET, h)))`
with `M1 := 1`, `M2 := 2`, handler `h := 5`. -/
def c2Tree : RouteBuilder Nat Nat :=
  (root).«with» 1 (fun r => r.«with» 2 (fun r₂ => r₂.method .get 5))

/-- Concrete tree for P1: `root().method(GET, h0).method(POST, h1)` with
`h0 := 0`, `h1 := 1`; its endpoint map holds two entries. -/
def c4Tree : RouteBuilder Nat Nat :=
  ((root).method .get 0).method .post 1

/-- Concrete tree for P3: `root().with(M, r => r.method(GET, h1)).method(POST, h2)`
with `M := 7`, `h1 := 1`, `h2 := 2`. -/
def c6Tree : RouteBuilder Nat Nat :=
  ((root).«with» 7 (fun r => r.method .get 1)).method .post 2

/-- Concrete tree for P7: `root().at("a", r => r.method(GET, 10)).at("b", r => r.method(GET, 20))`. -/
def c7Tree : RouteBuilder Nat Nat :=
  ((root).«at» "a" (fun r => r.method .get 10)).«at» "b"
    (fun r => r.method .get 20)

/-- Evaluation of `build` on the nested-`at` tree: one descriptor, with empty
path, no middleware, method GET and handler `0`. -/
theorem c1Tree_build_eq : c1Tree.build = [⟨"", [], .get, 0⟩] := by
  simp [c1Tree, root, RouteBuilder.«at», RouteBuilder.add_branch,
    RouteBuilder.method, insertEndpoint, RouteBuilder.route,
    RouteBuilder.branches, RouteBuilder.endpoints, RouteBuilder.build,
    RouteBuilder.buildAll, descOf]

/-- Evaluation of `build` on the two-endpoint root node, in the endpoint
list's own order. -/
theorem c4Tree_build_eq :
    c4Tree.build = [⟨"", [], .get, 0⟩, ⟨"", [], .post, 1⟩] := by
  simp [c4Tree, root, RouteBuilder.method, insertEndpoint, RouteBuilder.route,
    RouteBuilder.branches, RouteBuilder.endpoints, RouteBuilder.build,
    RouteBuilder.buildAll, descOf]

/-- A run of `build` on `c4Tree` whose `HashMap` iteration happens to follow
the association-list order. -/
theorem buildR_c4_inorder :
    BuildR c4Tree [⟨"", [], .get, 0⟩, ⟨"", [], .post, 1⟩] :=
  c4Tree_build_eq ▸ build_buildR c4Tree

/-- A run of `build` on `c4Tree` whose `HashMap` iteration yields the two
endpoint entries in the opposite order — equally admissible, since Rust's
`HashMap` iteration order is unspecified. -/
theorem buildR_c4_swapped :
    BuildR c4Tree [⟨"", [], .post, 1⟩, ⟨"", [], .get, 0⟩] := by
  have h : c4Tree = ⟨.root, [], [(.get, 0), (.post, 1)]⟩ := rfl
  rw [h]
  have hn := @BuildR.node Nat Nat .root [] [(.get, 0), (.post, 1)]
    [(.post, 1), (.get, 0)] [] (by decide) .nil
  simpa [descOf] using hn

/-- Descriptors made from entries whose method is not `m` never pass a filter
for method `m`. -/
theorem filter_method_of_filter_ne (l : List (Method × H)) (m : Method) :
    ((l.filter (fun p => p.1 ≠ m)).map descOf).filter
      (fun d : EndpointDescriptor M H => d.method == m) = [] := by
  rw [List.filter_eq_nil_iff]
  intro d hd
  rcases List.mem_map.1 hd with ⟨p, hp, rfl⟩
  rcases List.mem_filter.1 hp with ⟨_, hne⟩
  simpa [descOf] using of_decide_eq_true hne

/-- Claim C1 (code bug): on
`root().at("api", r => r.at("v1", r2 => r2.method(GET, h)))` the single
descriptor `build()` emits has path `""`, not the concatenation `"api/v1"`
the spec requires — `build` never reads the `Path` segments. -/
theorem c1_build_drops_path_segments :
    c1Tree.build = [⟨"", [], .get, 0⟩] :=
  c1Tree_build_eq

/-- Claim C2 (code bug): on
`root().with(M1, r => r.with(M2, r2 => r2.method(GET, h)))` the single
descriptor `build()` emits carries the middleware chain `[]`, not `[M1, M2]`
— `build` never reads the `Middleware` segments. -/
theorem c2_build_drops_middleware :
    c2Tree.build = [⟨"", [], .get, 5⟩] := by
  simp [c2Tree, root, RouteBuilder.«with», RouteBuilder.add_branch,
    RouteBuilder.method, insertEndpoint, RouteBuilder.route,
    RouteBuilder.branches, RouteBuilder.endpoints, RouteBuilder.build,
    RouteBuilder.buildAll, descOf]

/-- Claim C3 (confirmed): for every tree and every run of `build` (any
`HashMap` iteration order), every emitted `EndpointDescriptor` has an empty
path string and an empty middleware list. -/
theorem c3_descriptors_always_empty_path_and_middleware :
    ∀ (M H : Type) (t : RouteBuilder M H)
      (out : List (EndpointDescriptor M H)) (d : EndpointDescriptor M H),
      BuildR t out → d ∈ out → d.path = "" ∧ d.middlewares = [] :=
  fun _ _ t out d hout hd => buildR_descriptor_empty t out hout d hd

/-- Witness for C3 at the concrete tree `c1Tree` and its `build` output. -/
theorem c3_witness :
    (⟨"", [], .get, 0⟩ : EndpointDescriptor Nat Nat).path = "" ∧
      (⟨"", [], .get, 0⟩ : EndpointDescriptor Nat Nat).middlewares = [] :=
  c3_descriptors_always_empty_path_and_middleware Nat Nat c1Tree c1Tree.build
    ⟨"", [], .get, 0⟩ (build_buildR c1Tree)
    (by rw [c1Tree_build_eq]; exact List.mem_singleton.2 rfl)

/-- Claim C4, counterexample: the tree `root().method(GET, h0).method(POST, h1)`
admits two `build` runs (two `HashMap` iteration orders) whose descriptor
sequences differ, so `build` is not deterministic as an ordered sequence. -/
theorem c4_counterexample :
    BuildR c4Tree [⟨"", [], .get, 0⟩, ⟨"", [], .post, 1⟩] ∧
      BuildR c4Tree [⟨"", [], .post, 1⟩, ⟨"", [], .get, 0⟩] ∧
      ([⟨"", [], .get, 0⟩, ⟨"", [], .post, 1⟩] :
          List (EndpointDescriptor Nat Nat)) ≠
        [⟨"", [], .post, 1⟩, ⟨"", [], .get, 0⟩] :=
  ⟨buildR_c4_inorder, buildR_c4_swapped, by decide⟩

/-- Claim C4 as amended (proved): `build` is deterministic up to the
iteration order of each node's endpoint map — any two runs on the same tree
produce permutations of one another (the same multiset of descriptors). -/
theorem c4_build_deterministic_up_to_endpoint_order :
    ∀ (M H : Type) (t : RouteBuilder M H)
      (o₁ o₂ : List (EndpointDescriptor M H)),
      BuildR t o₁ → BuildR t o₂ → o₁.Perm o₂ :=
  fun _ _ t o₁ o₂ h₁ h₂ => buildR_perm t o₁ o₂ h₁ h₂

/-- Witness for the amended C4: the two concrete runs on `c4Tree` are
permutations of one another. -/
theorem c4_witness :
    ([⟨"", [], .get, 0⟩, ⟨"", [], .post, 1⟩] :
        List (EndpointDescriptor Nat Nat)).Perm
      [⟨"", [], .post, 1⟩, ⟨"", [], .get, 0⟩] :=
  c4_build_deterministic_up_to_endpoint_order Nat Nat c4Tree _ _
    buildR_c4_inorder buildR_c4_swapped

/-- Claim C5 (code bug): `register` does call `register_endpoint` once per
descriptor with the descriptor's path, method and handler — but on the
nested-`at` tree that path is `""`, not the spec's concatenation `"api/v1"`,
because `build` discards the `Path` segments. -/
theorem c5_register_passes_empty_path :
    registerCalls c1Tree = [("", .get, 0)] := by
  simp [registerCalls, c1Tree_build_eq]

/-- Claim C6 (code bug): on
`root().with(M, r => r.method(GET, h1)).method(POST, h2)` with `M := 7`,
`h1 := 1`, `h2 := 2`, the descriptor for `h1` has middleware chain `[]` — it
does not contain `M`, contradicting the claim's first half (its second half,
that `h2`'s chain omits `M`, holds trivially). -/
theorem c6_scoped_middleware_chain_is_empty :
    c6Tree.build = [⟨"", [], .post, 2⟩, ⟨"", [], .get, 1⟩] := by
  simp [c6Tree, root, RouteBuilder.«with», RouteBuilder.add_branch,
    RouteBuilder.method, insertEndpoint, RouteBuilder.route,
    RouteBuilder.branches, RouteBuilder.endpoints, RouteBuilder.build,
    RouteBuilder.buildAll, descOf]

/-- Claim C7 (confirmed): every `build` run emits the node's own descriptors
(in some order) before all descendants' descriptors, with descendants grouped
per branch in branch insertion order; in particular on
`root().at("a", …GET 10).at("b", …GET 20)` the `"a"` endpoint's descriptor
precedes the `"b"` endpoint's in every run. -/
theorem c7_build_preorder_branch_ordered :
    (∀ (M H : Type) (t : RouteBuilder M H)
        (out : List (EndpointDescriptor M H)), BuildR t out →
        ∃ (loc : List (Method × H))
          (subs : List (List (EndpointDescriptor M H))),
          loc.Perm t.endpoints ∧ BuildRList t.branches subs ∧
          out = loc.map descOf ++ subs.flatten) ∧
      (∀ out : List (EndpointDescriptor Nat Nat), BuildR c7Tree out →
        out = [⟨"", [], .get, 10⟩, ⟨"", [], .get, 20⟩]) := by
  constructor
  · intro M H t out hout
    obtain ⟨route, branches, endpoints⟩ := t
    cases hout with
    | node _ _ _ loc subs hp hl => exact ⟨loc, subs, hp, hl, rfl⟩
  · intro out hout
    have h : c7Tree = ⟨.root,
        [⟨.path "a", [], [(.get, 10)]⟩, ⟨.path "b", [], [(.get, 20)]⟩],
        []⟩ := rfl
    rw [h] at hout
    cases hout with
    | node _ _ _ loc subs hp hl =>
      have hloc : loc = [] := hp.eq_nil
      subst hloc
      cases hl with
      | cons ha hl₁ =>
        cases hl₁ with
        | cons hb hl₂ =>
          cases hl₂
          cases ha with
          | node _ _ _ loca subsa hpa hla =>
            have hla2 : loca = [(.get, 10)] := List.perm_singleton.1 hpa
            subst hla2
            cases hla
            cases hb with
            | node _ _ _ locb subsb hpb hlb =>
              have hlb2 : locb = [(.get, 20)] := List.perm_singleton.1 hpb
              subst hlb2
              cases hlb
              simp [descOf]

/-- Witness for C7 at the concrete tree `c7Tree` and its `build` output. -/
theorem c7_witness :
    (∃ (loc : List (Method × Nat))
        (subs : List (List (EndpointDescriptor Nat Nat))),
        loc.Perm c7Tree.endpoints ∧
        BuildRList c7Tree.branches subs ∧
        c7Tree.build = loc.map descOf ++ subs.flatten) ∧
      c7Tree.build = [⟨"", [], .get, 10⟩, ⟨"", [], .get, 20⟩] :=
  ⟨c7_build_preorder_branch_ordered.1 Nat Nat c7Tree c7Tree.build
      (build_buildR c7Tree),
    c7_build_preorder_branch_ordered.2 c7Tree.build (build_buildR c7Tree)⟩

/-- Claim C8 (confirmed): registering the same method twice at one node
overwrites — on a branch-free node, after `method(m, h1)` then `method(m, h2)`
the `build` output contains exactly one descriptor with method `m`, and its
handler is `h2`.  No error is possible: `method` totally returns the updated
builder. -/
theorem c8_same_method_overwrites :
    ∀ (M H : Type) (t : RouteBuilder M H) (m : Method) (h₁ h₂ : H),
      t.branches = [] →
      (((t.method m h₁).method m h₂).build).filter
        (fun d : EndpointDescriptor M H => d.method == m) = [⟨"", [], m, h₂⟩] := by
  intro M H t m h₁ h₂ hbr
  obtain ⟨route, bs, es⟩ := t
  simp only [RouteBuilder.branches] at hbr
  subst hbr
  simp [RouteBuilder.method, RouteBuilder.route, RouteBuilder.branches,
    RouteBuilder.endpoints, RouteBuilder.build, RouteBuilder.buildAll,
    insertEndpoint, List.filter_append, List.filter_filter, descOf]
  have h2 := @filter_method_of_filter_ne M H es m
  simpa [descOf] using h2

/-- Witness for C8: overwriting GET at the root with handlers `1` then `2`
leaves exactly one GET descriptor, with handler `2`. -/
theorem c8_witness :
    ((((root : RouteBuilder Nat Nat).method .get 1).method .get 2).build).filter
      (fun d : EndpointDescriptor Nat Nat => d.method == .get) =
      [⟨"", [], .get, 2⟩] :=
  c8_same_method_overwrites Nat Nat root .get 1 2 rfl

/-- Claim C9 (confirmed): `at` and `with` leave the receiving node's segment
and endpoint map untouched and append exactly one new configured child at the
end of its branches list. -/
theorem c9_add_branch_frame :
    ∀ (M H : Type) (t : RouteBuilder M H) (p : String) (mw : M)
      (f g : RouteBuilder M H → RouteBuilder M H),
      (t.«at» p f).route = t.route ∧ (t.«at» p f).endpoints = t.endpoints ∧
        (t.«at» p f).branches = t.branches ++ [f ⟨.path p, [], []⟩] ∧
        (t.«with» mw g).route = t.route ∧
        (t.«with» mw g).endpoints = t.endpoints ∧
        (t.«with» mw g).branches = t.branches ++ [g ⟨.middleware mw, [], []⟩] :=
  fun _ _ _ _ _ _ _ => ⟨rfl, rfl, rfl, rfl, rfl, rfl⟩

/-- Claim C10 (confirmed): the flattening is a finite, terminating tree walk
— `build` (and hence `register`, which maps over `build`'s output) is a total
function whose output length is exactly the number of endpoint registrations
in the tree. -/
theorem c10_build_terminates_finite :
    ∀ (M H : Type) (t : RouteBuilder M H),
      t.build.length = countEndpoints t ∧
        (registerCalls t).length = countEndpoints t :=
  fun _ _ t =>
    ⟨build_length t, by rw [registerCalls, List.length_map]; exact build_length t⟩

end TideRoutes
